import Mathlib

/-!
Verification development for the StrategyForge screener
(`src/scripts/screener.py`).

The script is embedded shallowly:
* Python values that may appear in a screener result row are modelled by
  `PyVal`; Python floats are modelled by `PyFloat`, a rational number or one
  of the non-finite values (`nan`, `inf`, `-inf`) that `math.isnan` /
  `math.isinf` distinguish.
* `clean_for_json` is the recursive sanitizer from the script.
* The orchestration (`run_screener`, the row-normalisation loop of `main`,
  `save_to_database`) is embedded as pure state-passing functions over an
  explicit environment `Env` that supplies the outcomes of all external
  effects (remote query results, connection success, per-statement
  failures), and an explicit relational-store state `DBState`.
-/

set_option autoImplicit false

/-- Model of a Python float as seen by `math.isnan` / `math.isinf`:
either a finite value (modelled as a rational) or one of the three
non-finite values. -/
inductive PyFloat where
  | finite (q : ℚ)
  | nan
  | inf
  | ninf
deriving DecidableEq

/-- `math.isnan(f) or math.isinf(f)` from `clean_for_json`. -/
def PyFloat.nonfinite : PyFloat → Bool
  | .finite _ => false
  | .nan => true
  | .inf => true
  | .ninf => true

/-- Model of the Python values that flow through the screener:
`None`, booleans, ints, floats, strings, dicts (`pdict`, association list
in insertion order, as Python dicts are ordered) and lists. -/
inductive PyVal where
  | pnone
  | pbool (b : Bool)
  | pint (n : Int)
  | pfloat (f : PyFloat)
  | pstr (s : String)
  | pdict (entries : List (String × PyVal))
  | plist (items : List PyVal)

mutual

/-- `clean_for_json` from `screener.py`: replace NaN/Inf values with `None`
for JSON serialization, recursing through dicts and lists. -/
def clean_for_json : PyVal → PyVal
  | .pdict entries => .pdict (cleanEntries entries)
  | .plist items => .plist (cleanItems items)
  | .pfloat f => if f.nonfinite then .pnone else .pfloat f
  | .pnone => .pnone
  | .pbool b => .pbool b
  | .pint n => .pint n
  | .pstr s => .pstr s

/-- `{k: clean_for_json(v) for k, v in obj.items()}`. -/
def cleanEntries : List (String × PyVal) → List (String × PyVal)
  | [] => []
  | (k, v) :: rest => (k, clean_for_json v) :: cleanEntries rest

/-- `[clean_for_json(v) for v in obj]`. -/
def cleanItems : List PyVal → List PyVal
  | [] => []
  | v :: rest => clean_for_json v :: cleanItems rest

end

mutual

/-- No non-finite float occurs anywhere in the value. -/
def noNonfinite : PyVal → Bool
  | .pdict entries => noNonfiniteEntries entries
  | .plist items => noNonfiniteItems items
  | .pfloat f => !f.nonfinite
  | _ => true

def noNonfiniteEntries : List (String × PyVal) → Bool
  | [] => true
  | (_, v) :: rest => noNonfinite v && noNonfiniteEntries rest

def noNonfiniteItems : List PyVal → Bool
  | [] => true
  | v :: rest => noNonfinite v && noNonfiniteItems rest

end

mutual

/-- Structural identity up to scalar contents: dicts match dicts key for
key, lists match lists element for element, and any scalar matches any
scalar (this is the sense in which replacing a float by `None` preserves
the shape of the nesting). -/
def sameShape : PyVal → PyVal → Bool
  | .pdict es, .pdict fs => sameShapeEntries es fs
  | .plist xs, .plist ys => sameShapeItems xs ys
  | .pdict _, _ => false
  | .plist _, _ => false
  | _, .pdict _ => false
  | _, .plist _ => false
  | _, _ => true

def sameShapeEntries : List (String × PyVal) → List (String × PyVal) → Bool
  | [], [] => true
  | (k, v) :: es, (k', v') :: fs => k == k' && sameShape v v' && sameShapeEntries es fs
  | _, _ => false

def sameShapeItems : List PyVal → List PyVal → Bool
  | [], [] => true
  | x :: xs, y :: ys => sameShape x y && sameShapeItems xs ys
  | _, _ => false

end

/-- A scalar (non-container) value. -/
def PyVal.isScalar : PyVal → Bool
  | .pdict _ => false
  | .plist _ => false
  | _ => true

/-- A scalar that is not a float. -/
def PyVal.isNonFloatScalar : PyVal → Bool
  | .pfloat _ => false
  | .pdict _ => false
  | .plist _ => false
  | _ => true

mutual

theorem clean_sameShape : ∀ v, sameShape v (clean_for_json v) = true
  | .pdict es => by simp [clean_for_json, sameShape, cleanEntries_sameShape es]
  | .plist xs => by simp [clean_for_json, sameShape, cleanItems_sameShape xs]
  | .pfloat f => by cases f <;> simp [clean_for_json, PyFloat.nonfinite, sameShape]
  | .pnone => by simp [clean_for_json, sameShape]
  | .pbool b => by simp [clean_for_json, sameShape]
  | .pint n => by simp [clean_for_json, sameShape]
  | .pstr s => by simp [clean_for_json, sameShape]

theorem cleanEntries_sameShape : ∀ es, sameShapeEntries es (cleanEntries es) = true
  | [] => by simp [cleanEntries, sameShapeEntries]
  | (k, v) :: rest => by
      simp [cleanEntries, sameShapeEntries, clean_sameShape v, cleanEntries_sameShape rest]

theorem cleanItems_sameShape : ∀ xs, sameShapeItems xs (cleanItems xs) = true
  | [] => by simp [cleanItems, sameShapeItems]
  | v :: rest => by
      simp [cleanItems, sameShapeItems, clean_sameShape v, cleanItems_sameShape rest]

end

mutual

theorem clean_noNonfinite : ∀ v, noNonfinite (clean_for_json v) = true
  | .pdict es => by simp [clean_for_json, noNonfinite, cleanEntries_noNonfinite es]
  | .plist xs => by simp [clean_for_json, noNonfinite, cleanItems_noNonfinite xs]
  | .pfloat f => by cases f <;> simp [clean_for_json, PyFloat.nonfinite, noNonfinite]
  | .pnone => by simp [clean_for_json, noNonfinite]
  | .pbool b => by simp [clean_for_json, noNonfinite]
  | .pint n => by simp [clean_for_json, noNonfinite]
  | .pstr s => by simp [clean_for_json, noNonfinite]

theorem cleanEntries_noNonfinite : ∀ es, noNonfiniteEntries (cleanEntries es) = true
  | [] => by simp [cleanEntries, noNonfiniteEntries]
  | (k, v) :: rest => by
      simp [cleanEntries, noNonfiniteEntries, clean_noNonfinite v,
        cleanEntries_noNonfinite rest]

theorem cleanItems_noNonfinite : ∀ xs, noNonfiniteItems (cleanItems xs) = true
  | [] => by simp [cleanItems, noNonfiniteItems]
  | v :: rest => by
      simp [cleanItems, noNonfiniteItems, clean_noNonfinite v, cleanItems_noNonfinite rest]

end

mutual

theorem clean_idem : ∀ v, clean_for_json (clean_for_json v) = clean_for_json v
  | .pdict es => by simp [clean_for_json, cleanEntries_idem es]
  | .plist xs => by simp [clean_for_json, cleanItems_idem xs]
  | .pfloat f => by cases f <;> simp [clean_for_json, PyFloat.nonfinite]
  | .pnone => by simp [clean_for_json]
  | .pbool b => by simp [clean_for_json]
  | .pint n => by simp [clean_for_json]
  | .pstr s => by simp [clean_for_json]

theorem cleanEntries_idem : ∀ es, cleanEntries (cleanEntries es) = cleanEntries es
  | [] => by simp [cleanEntries]
  | (k, v) :: rest => by simp [cleanEntries, clean_idem v, cleanEntries_idem rest]

theorem cleanItems_idem : ∀ xs, cleanItems (cleanItems xs) = cleanItems xs
  | [] => by simp [cleanItems]
  | v :: rest => by simp [cleanItems, clean_idem v, cleanItems_idem rest]

end

theorem clean_nonFloatScalar_id (v : PyVal) (h : v.isNonFloatScalar = true) :
    clean_for_json v = v := by
  cases v <;> simp_all [PyVal.isNonFloatScalar, clean_for_json]

/-! ### Python `str.split` and symbol extraction -/

/-- Python `s.split(sep)` for a one-character separator: always returns at
least one (possibly empty) segment; `''.split(':') == ['']`. -/
def pySplit (sep : Char) : List Char → List (List Char)
  | [] => [[]]
  | c :: rest =>
    let r := pySplit sep rest
    if c = sep then [] :: r
    else
      match r with
      | [] => [[c]]
      | seg :: segs => (c :: seg) :: segs

/-- `row.get('name', '').split(':')[-1]` from `main`: the segment after the
last `':'` (Python `[-1]` on a `split` result, which is never empty). -/
def lastSegment (s : String) : String :=
  ⟨(pySplit ':' s.data).getLastD []⟩

theorem pySplit_ne_nil (sep : Char) (s : List Char) : pySplit sep s ≠ [] := by
  induction s with
  | nil => simp [pySplit]
  | cons c rest ih =>
    simp only [pySplit]
    split
    · simp
    · cases h : pySplit sep rest with
      | nil => simp
      | cons seg segs => simp

theorem pySplit_no_sep (sep : Char) (s : List Char) (h : sep ∉ s) :
    pySplit sep s = [s] := by
  induction s with
  | nil => simp [pySplit]
  | cons c rest ih =>
    simp only [List.mem_cons, not_or] at h
    simp [pySplit, Ne.symm h.1, ih h.2]

/-- A name with no `':'` yields the whole string. -/
theorem lastSegment_no_colon (s : String) (h : ':' ∉ s.data) : lastSegment s = s := by
  simp [lastSegment, pySplit_no_sep ':' s.data h]

theorem pySplit_two_le (sep : Char) (s : List Char) (h : sep ∈ s) :
    2 ≤ (pySplit sep s).length := by
  induction s with
  | nil => simp at h
  | cons c rest ih =>
    simp only [pySplit]
    by_cases hc : c = sep
    · cases hr : pySplit sep rest with
      | nil => exact absurd hr (pySplit_ne_nil sep rest)
      | cons x xs => simp [hc, hr]
    · have hb : sep ∈ rest := by
        rcases List.mem_cons.mp h with h1 | h2
        · exact absurd h1.symm hc
        · exact h2
      have h2 := ih hb
      cases hr : pySplit sep rest with
      | nil => exact absurd hr (pySplit_ne_nil sep rest)
      | cons x xs =>
        rw [hr] at h2
        simp only [hc, if_false, List.length_cons] at h2 ⊢
        omega

theorem pySplit_getLastD (sep : Char) (a b : List Char) (h : sep ∉ b) :
    (pySplit sep (a ++ sep :: b)).getLastD [] = b := by
  induction a with
  | nil => simp [pySplit, pySplit_no_sep sep b h]
  | cons c rest ih =>
    simp only [List.cons_append, pySplit]
    by_cases hc : c = sep
    · simp only [hc, if_true, List.getLastD_cons]
      exact ih
    · have hmem : sep ∈ rest ++ sep :: b := by simp
      have h2 := pySplit_two_le sep (rest ++ sep :: b) hmem
      cases hr : pySplit sep (rest ++ sep :: b) with
      | nil => exact absurd hr (pySplit_ne_nil sep (rest ++ sep :: b))
      | cons x xs =>
        cases xs with
        | nil => rw [hr] at h2; simp at h2
        | cons y ys =>
          rw [hr] at ih
          simp only [hc, if_false, hr]
          simpa [List.getLastD_cons] using ih

/-- `lastSegment` returns exactly the text after the last `':'`. -/
theorem lastSegment_after_last_colon (a b : List Char) (h : ':' ∉ b) :
    lastSegment ⟨a ++ ':' :: b⟩ = ⟨b⟩ := by
  unfold lastSegment
  rw [pySplit_getLastD ':' a b h]

/-! ### Result rows and the normalisation loop of `main` -/

/-- A raw screener result row: one record of `results.to_dict('records')`,
a mapping from column name to value, in column order. -/
abbrev Row := List (String × PyVal)

/-- Python `row.get(k, default)`. -/
def rowGet (row : Row) (k : String) (default : PyVal) : PyVal :=
  match row.find? (fun e => e.1 == k) with
  | some e => e.2
  | none => default

/-- The string content of a value contractually known to be a string (the
`name` column of every strategy's column list is the composite
exchange-qualified identifier, a string); non-strings do not occur there. -/
def PyVal.asStr : PyVal → String
  | .pstr s => s
  | _ => ""

/-- Python truthiness (`bool(v)`) for the modelled values; note that
`nan` and the infinities are truthy. -/
def pyTruthy : PyVal → Bool
  | .pnone => false
  | .pbool b => b
  | .pint n => !(n == 0)
  | .pfloat (.finite q) => !(q == 0)
  | .pfloat _ => true
  | .pstr s => !(s == "")
  | .pdict es => !es.isEmpty
  | .plist xs => !xs.isEmpty

/-- Python `v < n` for an int literal `n`, on the numeric domain of the
rows (`close` is numeric or missing by the column contract; comparisons
with `nan` are `False`). -/
def pyLtInt (v : PyVal) (n : Int) : Bool :=
  match v with
  | .pint m => m < n
  | .pbool b => (if b then (1 : Int) else 0) < n
  | .pfloat (.finite q) => q < (n : ℚ)
  | .pfloat .nan => false
  | .pfloat .inf => false
  | .pfloat .ninf => true
  | _ => false

/-- Python `v > n` for an int literal `n` (see `pyLtInt`). -/
def pyGtInt (v : PyVal) (n : Int) : Bool :=
  match v with
  | .pint m => n < m
  | .pbool b => n < (if b then (1 : Int) else 0)
  | .pfloat (.finite q) => (n : ℚ) < q
  | .pfloat .nan => false
  | .pfloat .inf => true
  | .pfloat .ninf => false
  | _ => false

/-- `row.get('name', '').split(':')[-1]` from `main`. -/
def rowSymbol (row : Row) : String :=
  lastSegment (rowGet row "name" (.pstr "")).asStr

/-- The price sanity check of `main`, as the acceptance condition: the row
is kept unless `not price or price < 25 or price > 100`. -/
def priceOk (price : PyVal) : Bool :=
  !(!(pyTruthy price) || pyLtInt price 25 || pyGtInt price 100)

/-- A normalized signal record, as appended to `all_signals` in `main`. -/
structure Signal where
  symbol : String
  strategy_key : String
  strategy_name : String
  price : PyVal
  indicators : Row

/-- The body of the per-row loop of `main`: symbol extraction with skip on
empty symbol, indicator projection (every field except `name`), price
extraction with default `0`, the price range double-check with skip, and
the construction of the signal record. -/
def normalizeRow (strategyKey strategyName : String) (row : Row) : Option Signal :=
  let symbol := rowSymbol row
  if symbol == "" then
    none
  else
    let indicators := row.filter (fun e => !(e.1 == "name"))
    let price := rowGet row "close" (.pint 0)
    if !(pyTruthy price) || pyLtInt price 25 || pyGtInt price 100 then
      none
    else
      some { symbol := symbol, strategy_key := strategyKey,
             strategy_name := strategyName, price := price,
             indicators := indicators }

/-! ### Strategy catalog, environment, screener runner -/

/-- One entry of `STRATEGY_FILTERS`: display name and column list. The
filter predicates are part of the opaque query payload sent to the remote
capability and never inspected by this program, so they are not modelled
beyond their effect on the remote response (which `Env` supplies). -/
structure StrategyConfig where
  name : String
  columns : List String

/-- The static `STRATEGY_FILTERS` mapping of `screener.py`, in insertion
order (Python dicts preserve it). -/
def STRATEGY_FILTERS : List (String × StrategyConfig) :=
  [ ("rsi_stochastic_oversold",
     ⟨"RSI-Stochastic Double Oversold",
      ["name", "close", "RSI", "Stoch.K", "Stoch.D", "MACD.macd", "MACD.signal",
       "volume", "change"]⟩),
    ("adx_trend_pullback",
     ⟨"ADX Trend + MA Pullback",
      ["name", "close", "ADX", "ADX+DI", "ADX-DI", "SMA20", "SMA50", "volume",
       "change"]⟩),
    ("bollinger_squeeze",
     ⟨"Bollinger Squeeze Breakout",
      ["name", "close", "BB.upper", "BB.lower", "Volatility.D", "Mom", "volume",
       "change"]⟩),
    ("macd_bb_volume",
     ⟨"MACD-BB-Volume Triple Filter",
      ["name", "close", "MACD.macd", "MACD.signal", "SMA20", "RSI", "volume",
       "change"]⟩),
    ("stochastic_rsi_sync",
     ⟨"Stochastic-RSI Momentum Sync",
      ["name", "close", "Stoch.K", "Stoch.D", "RSI", "SMA50", "volume",
       "change"]⟩),
    ("rsi_mean_reversion",
     ⟨"RSI Mean Reversion", ["name", "close", "RSI", "volume", "change"]⟩),
    ("macd_momentum",
     ⟨"MACD Momentum Crossover",
      ["name", "close", "MACD.macd", "MACD.signal", "SMA50", "volume",
       "change"]⟩),
    ("volume_breakout",
     ⟨"Volume Breakout Scanner",
      ["name", "close", "relative_volume_10d_calc", "High.All", "volume",
       "change"]⟩) ]

/-- The remote capability's answer for one query: the total-match count and
the returned rows (`query.get_scanner_data()`). -/
structure RemoteResponse where
  total : Nat
  rows : List Row

/-- The outcomes of every external effect of one run: the remote query
result per strategy key (`.error` = the call raised), the configured
connection string, whether `psycopg2.connect` succeeds, whether the
eviction `DELETE` succeeds, whether the `i`-th `INSERT` statement of the
batch raises, and the clock (`NOW()`, in hours). -/
structure Env where
  query_result : String → Except String RemoteResponse
  db_url : String
  connect_ok : Bool
  delete_ok : Bool
  insert_raises : Nat → Bool
  now : Nat

/-- `run_screener` from `screener.py`: one remote query; any exception is
caught and turned into the empty result list. Returns the rows and the
diagnostic line printed. -/
def run_screener (env : Env) (strategyKey : String) (config : StrategyConfig) :
    List Row × String :=
  match env.query_result strategyKey with
  | .ok resp =>
    (resp.rows,
     "  " ++ config.name ++ ": " ++ toString resp.total ++
       " total matches, returning top " ++ toString resp.rows.length)
  | .error e =>
    ([], "  Error running screener for " ++ strategyKey ++ ": " ++ e)

/-- The signals one strategy contributes to `all_signals` in `main`: its
screener rows fed through the per-row normalisation loop. -/
def strategySignals (env : Env) (strategyKey : String) (config : StrategyConfig) :
    List Signal :=
  (run_screener env strategyKey config).1.filterMap
    (normalizeRow strategyKey config.name)

/-- The full `all_signals` list accumulated by `main`, strategies in
catalog order. -/
def mainSignals (env : Env) : List Signal :=
  (STRATEGY_FILTERS.map (fun p => strategySignals env p.1 p.2)).flatten

/-! ### The signal store (`save_to_database`) -/

/-- One row of the `ScreenerSignal` table. -/
structure DBRecord where
  symbol : String
  strategy_key : String
  strategy_name : String
  price : PyVal
  indicators : PyVal
  scanned_at : Nat
  processed : Bool

/-- The `ScreenerSignal` table contents. -/
abbrev DBState := List DBRecord

/-- Store interactions, recorded so that theorems can speak about which
operations reached the store at all. -/
inductive DBEvent where
  | connect
  | evict
  | insert (symbol : String)

/-- The eviction step: `DELETE FROM "ScreenerSignal" WHERE scanned_at <
NOW() - INTERVAL '1 day'` (timestamps in hours, one day = 24). -/
def evictOld (now : Nat) (db : DBState) : DBState :=
  db.filter (fun r => !(r.scanned_at + 24 < now))

/-- The uniqueness scope of the table: same symbol, same strategy key,
same calendar day of the scan timestamp. -/
def sameKey (now : Nat) (s : Signal) (r : DBRecord) : Bool :=
  r.symbol == s.symbol && r.strategy_key == s.strategy_key &&
    r.scanned_at / 24 == now / 24

/-- The row an `INSERT` statement of `save_to_database` writes: all signal
attributes, the indicators passed through `clean_for_json` (then
serialised), `scanned_at = NOW()` and `processed = FALSE`. -/
def mkRecord (now : Nat) (s : Signal) : DBRecord :=
  { symbol := s.symbol, strategy_key := s.strategy_key,
    strategy_name := s.strategy_name, price := s.price,
    indicators := .pdict (cleanEntries s.indicators),
    scanned_at := now, processed := false }

/-- One `INSERT ... ON CONFLICT DO NOTHING`: a conflicting row leaves the
table unchanged and raises no error; otherwise the record is appended. -/
def insertSignal (now : Nat) (db : DBState) (s : Signal) : DBState :=
  if db.any (sameKey now s) then
    db
  else
    db ++ [mkRecord now s]

/-- The insert loop of `save_to_database`: per-record exceptions are caught
and logged; `saved_count` is incremented after every `cur.execute` that did
not raise (conflicts included, since `ON CONFLICT DO NOTHING` raises
nothing). -/
def insertLoop (env : Env) :
    List Signal → Nat → DBState → Nat → List String → DBState × Nat × List String
  | [], _, db, count, lines => (db, count, lines)
  | s :: rest, i, db, count, lines =>
    if env.insert_raises i then
      insertLoop env rest (i + 1) db count
        (lines ++ ["  Error saving " ++ s.symbol ++ ": error"])
    else
      insertLoop env rest (i + 1) (insertSignal env.now db s) (count + 1) lines

/-- Everything `save_to_database` leaves behind: the table state, the store
interactions, the printed lines, and the reported count (`none` when the
`DATABASE_URL` guard returned early and no `Saved` line was printed). -/
structure StoreOutcome where
  db : DBState
  events : List DBEvent
  lines : List String
  saved : Option Nat

/-- `save_to_database` from `screener.py`. The missing-URL guard returns
early with only an error line; `psycopg2.connect` is not wrapped in any
`try`, so a connection failure raises out of the function; the eviction
`DELETE` and each `INSERT` are individually guarded. -/
def save_to_database (env : Env) (db : DBState) (signals : List Signal) :
    Except String StoreOutcome :=
  if env.db_url == "" then
    .ok { db := db, events := [], lines := ["ERROR: DATABASE_URL not set"],
          saved := none }
  else if !env.connect_ok then
    .error "could not connect to database"
  else
    let step1 :=
      if env.delete_ok then (evictOld env.now db, ([] : List String))
      else (db, ["  Error clearing old signals: error"])
    let step2 := insertLoop env signals 0 step1.1 0 []
    .ok { db := step2.1,
          events := .connect :: .evict :: signals.map (fun s => .insert s.symbol),
          lines := step1.2 ++ step2.2.2 ++
            ["Saved " ++ toString step2.2.1 ++ "/" ++ toString signals.length ++
              " signals to database"],
          saved := some step2.2.1 }

/-! ### The orchestrator (`main`) -/

/-- The `'=' * 50` separator line. -/
def sepLine : String := ⟨List.replicate 50 '='⟩

/-- The per-strategy console lines of the scan phase: `Scanning: <name>`
followed by the screener runner's own diagnostic line. -/
def scanLines (env : Env) : List String :=
  (STRATEGY_FILTERS.map (fun p =>
    ["Scanning: " ++ p.2.name, (run_screener env p.1 p.2).2])).flatten

/-- The final per-strategy breakdown printed by `main`. -/
def summaryLines (signals : List Signal) : List String :=
  "Summary by strategy:" ::
    STRATEGY_FILTERS.map (fun p =>
      "  " ++ p.2.name ++ ": " ++
        toString ((signals.filter (fun s => s.strategy_key == p.1)).length) ++
        " signals")

/-- What a completed run leaves behind. -/
structure MainOutcome where
  signals : List Signal
  db : DBState
  events : List DBEvent
  lines : List String

/-- `main` from `screener.py`: scan all strategies, normalise, report the
total, persist only when `all_signals` is non-empty (an exception escaping
`save_to_database` — the unguarded `psycopg2.connect` — propagates and
kills the run before the summary), then print the summary. -/
def screenerMain (env : Env) (db0 : DBState) : Except String MainOutcome :=
  let signals := mainSignals env
  let head :=
    ("TradingView Screener - " ++ toString env.now) :: sepLine ::
      scanLines env ++
      [sepLine, "Total signals found: " ++ toString signals.length]
  if signals.isEmpty then
    .ok { signals := signals, db := db0, events := [],
          lines := head ++ summaryLines signals }
  else
    match save_to_database env db0 signals with
    | .error e => .error e
    | .ok out =>
      .ok { signals := signals, db := out.db, events := out.events,
            lines := head ++ out.lines ++ summaryLines signals }

/-- Recognises the store's persisted-count report: a line starting with
`Saved `. -/
def isSavedLine (l : String) : Bool :=
  match l.data with
  | 'S' :: 'a' :: 'v' :: 'e' :: 'd' :: ' ' :: _ => true
  | _ => false

/-! ### Behaviour of the normalisation loop -/

theorem normalizeRow_none_of_symbol (k n : String) (row : Row)
    (h : rowSymbol row = "") : normalizeRow k n row = none := by
  simp [normalizeRow, h]

theorem normalizeRow_of_price (k n : String) (row : Row) (h : rowSymbol row ≠ "") :
    normalizeRow k n row =
      if priceOk (rowGet row "close" (.pint 0)) then
        some { symbol := rowSymbol row, strategy_key := k, strategy_name := n,
               price := rowGet row "close" (.pint 0),
               indicators := row.filter (fun e => !(e.1 == "name")) }
      else none := by
  have hb : (rowSymbol row == "") = false := beq_eq_false_iff_ne.mpr h
  cases hc : (!(pyTruthy (rowGet row "close" (.pint 0))) ||
      pyLtInt (rowGet row "close" (.pint 0)) 25 ||
      pyGtInt (rowGet row "close" (.pint 0)) 100) <;>
    simp [normalizeRow, hb, priceOk, hc]

theorem normalizeRow_none_iff_price (k n : String) (row : Row)
    (h : rowSymbol row ≠ "") :
    (normalizeRow k n row = none ↔ priceOk (rowGet row "close" (.pint 0)) = false) := by
  rw [normalizeRow_of_price k n row h]
  cases hp : priceOk (rowGet row "close" (.pint 0)) <;> simp

/-- C4. `sanitize` (embedded as `clean_for_json`) returns a structurally
identical value: the shape of nested dicts and lists is preserved, every
NaN/±infinity float is replaced by the null marker (and only floats are
touched at scalar positions: finite floats and non-float scalars pass
through unchanged), and the result is free of non-finite values. Purity and
totality hold by construction: `clean_for_json` is a total Lean function. -/
theorem clean_for_json_contract_C4 (v : PyVal) :
    sameShape v (clean_for_json v) = true ∧
    noNonfinite (clean_for_json v) = true ∧
    (∀ f : PyFloat, clean_for_json (.pfloat f) =
      if f.nonfinite then .pnone else .pfloat f) ∧
    (v.isNonFloatScalar = true → clean_for_json v = v) :=
  ⟨clean_sameShape v, clean_noNonfinite v,
   fun f => by simp [clean_for_json],
   fun h => clean_nonFloatScalar_id v h⟩

theorem clean_for_json_contract_C4_witness :
    sameShape (.pstr "AAPL") (clean_for_json (.pstr "AAPL")) = true ∧
    noNonfinite (clean_for_json (.pstr "AAPL")) = true ∧
    clean_for_json (.pfloat .nan) = .pnone ∧
    clean_for_json (.pstr "AAPL") = .pstr "AAPL" := by
  refine ⟨(clean_for_json_contract_C4 (.pstr "AAPL")).1,
    (clean_for_json_contract_C4 (.pstr "AAPL")).2.1, ?_,
    (clean_for_json_contract_C4 (.pstr "AAPL")).2.2.2 rfl⟩
  have h := (clean_for_json_contract_C4 (.pstr "AAPL")).2.2.1 .nan
  simpa using h

/-- C5. `sanitize` is idempotent: sanitizing twice equals sanitizing
once, for every value. -/
theorem clean_for_json_idem_C5 (v : PyVal) :
    clean_for_json (clean_for_json v) = clean_for_json v :=
  clean_idem v

/-- C6. The normalizer takes the row's `name` field, splits on the last
`':'` and uses the trailing segment as the base symbol (a name with no
`':'` yields the whole string; `NASDAQ:AAPL` yields `AAPL`, `AAPL` yields
`AAPL`), and at the symbol stage skips the row exactly when the resulting
symbol is empty: an empty symbol (including empty or missing name) yields
no signal, and a non-empty symbol yields a signal with that symbol unless
the later price check rejects the row. -/
theorem symbol_extraction_C6 (k n : String) (row : Row) :
    (∀ a b : List Char, ':' ∉ b → lastSegment ⟨a ++ ':' :: b⟩ = ⟨b⟩) ∧
    (∀ s : String, ':' ∉ s.data → lastSegment s = s) ∧
    lastSegment "NASDAQ:AAPL" = "AAPL" ∧
    lastSegment "AAPL" = "AAPL" ∧
    rowSymbol row = lastSegment (rowGet row "name" (.pstr "")).asStr ∧
    (rowSymbol row = "" → normalizeRow k n row = none) ∧
    (rowSymbol row ≠ "" → priceOk (rowGet row "close" (.pint 0)) = true →
      ∃ sig, normalizeRow k n row = some sig ∧ sig.symbol = rowSymbol row) := by
  refine ⟨fun a b hb => lastSegment_after_last_colon a b hb,
    fun s hs => lastSegment_no_colon s hs, by decide, by decide, rfl,
    fun h => normalizeRow_none_of_symbol k n row h, fun h hp => ?_⟩
  rw [normalizeRow_of_price k n row h, hp]
  exact ⟨_, rfl, rfl⟩

theorem symbol_extraction_C6_witness :
    lastSegment "NASDAQ:AAPL" = "AAPL" ∧
    lastSegment "AAPL" = "AAPL" ∧
    normalizeRow "rsi_mean_reversion" "RSI Mean Reversion"
      [("close", PyVal.pint 30)] = none := by
  have t := symbol_extraction_C6 "rsi_mean_reversion" "RSI Mean Reversion"
    [("close", PyVal.pint 30)]
  exact ⟨t.2.2.1, t.2.2.2.1, t.2.2.2.2.2.1 rfl⟩


theorem priceOk_pint_false_iff (m : Int) :
    priceOk (.pint m) = false ↔ m = 0 ∨ m < 25 ∨ 100 < m := by
  simp [priceOk, pyTruthy, pyLtInt, pyGtInt]
  omega

theorem priceOk_rat_false_iff (q : ℚ) :
    priceOk (.pfloat (.finite q)) = false ↔ q = 0 ∨ q < 25 ∨ 100 < q := by
  unfold priceOk pyTruthy pyLtInt pyGtInt
  by_cases h0 : q = 0 <;> by_cases h25 : q < (25 : ℚ) <;>
    by_cases h100 : (100 : ℚ) < q <;> simp [h0, h25, h100]

/-- C7. The normalizer takes the price from the row's `close` field
(defaulting to `0` when absent, which is falsy and hence skipped) and skips
the row exactly when the price is falsy/zero or strictly outside the
inclusive band `[25, 100]`: for integer and finite-float prices the skip
condition is exactly `p = 0 ∨ p < 25 ∨ 100 < p` (so prices of exactly 25
or 100 are accepted and a close of 150 is skipped), a null price is
skipped, and infinite prices are skipped. Comparisons are Python float
comparisons on the numeric domain. -/
theorem price_band_C7 (k n : String) (row : Row) (h : rowSymbol row ≠ "") :
    (row.find? (fun e => e.1 == "close") = none → normalizeRow k n row = none) ∧
    (rowGet row "close" (.pint 0) = .pnone → normalizeRow k n row = none) ∧
    (∀ m : Int, rowGet row "close" (.pint 0) = .pint m →
      (normalizeRow k n row = none ↔ m = 0 ∨ m < 25 ∨ 100 < m)) ∧
    (∀ q : ℚ, rowGet row "close" (.pint 0) = .pfloat (.finite q) →
      (normalizeRow k n row = none ↔ q = 0 ∨ q < 25 ∨ 100 < q)) ∧
    ((rowGet row "close" (.pint 0) = .pfloat .inf ∨
        rowGet row "close" (.pint 0) = .pfloat .ninf) →
      normalizeRow k n row = none) := by
  have base := normalizeRow_none_iff_price k n row h
  refine ⟨fun hm => ?_, fun hp => ?_, fun m hp => ?_, fun q hp => ?_, fun hp => ?_⟩
  · have hz : rowGet row "close" (.pint 0) = .pint 0 := by simp [rowGet, hm]
    rw [base, hz]
    simp [priceOk, pyTruthy]
  · rw [base, hp]
    simp [priceOk, pyTruthy]
  · rw [base, hp, priceOk_pint_false_iff]
  · rw [base, hp, priceOk_rat_false_iff]
  · rcases hp with hp | hp <;> rw [base, hp] <;>
      simp [priceOk, pyTruthy, pyLtInt, pyGtInt]

theorem price_band_C7_witness :
    normalizeRow "volume_breakout" "Volume Breakout Scanner"
      [("name", PyVal.pstr "NASDAQ:XYZ"), ("close", PyVal.pint 150)] = none ∧
    normalizeRow "volume_breakout" "Volume Breakout Scanner"
      [("name", PyVal.pstr "NASDAQ:XYZ"), ("close", PyVal.pint 25)] ≠ none := by
  constructor
  · exact ((price_band_C7 "volume_breakout" "Volume Breakout Scanner"
      [("name", PyVal.pstr "NASDAQ:XYZ"), ("close", PyVal.pint 150)]
      (by decide)).2.2.1 150 rfl).mpr (by decide)
  · intro hnone
    have := ((price_band_C7 "volume_breakout" "Volume Breakout Scanner"
      [("name", PyVal.pstr "NASDAQ:XYZ"), ("close", PyVal.pint 25)]
      (by decide)).2.2.1 25 rfl).mp hnone
    omega

/-! ### Concrete fixtures used by witnesses and counterexamples -/

/-- A result row whose `RSI` indicator is `nan` and whose price is in
band. -/
def rowNanInd : Row :=
  [("name", .pstr "NASDAQ:AAPL"), ("close", .pint 30), ("RSI", .pfloat .nan)]

/-- The signal `normalizeRow` produces from `rowNanInd`: its indicator
mapping still carries the raw `nan`. -/
def sigNanInd : Signal :=
  { symbol := "AAPL", strategy_key := "rsi_mean_reversion",
    strategy_name := "RSI Mean Reversion", price := .pint 30,
    indicators := [("close", .pint 30), ("RSI", .pfloat .nan)] }

/-- A plain in-band signal. -/
def sig0 : Signal :=
  { symbol := "AAPL", strategy_key := "rsi_mean_reversion",
    strategy_name := "RSI Mean Reversion", price := .pint 30,
    indicators := [("close", .pint 30)] }

/-- A healthy environment: empty remote results, working store. -/
def env0 : Env :=
  { query_result := fun _ => .ok ⟨0, []⟩, db_url := "postgres://x",
    connect_ok := true, delete_ok := true, insert_raises := fun _ => false,
    now := 1000 }

/-- One strategy yields a row, every other strategy's query raises, and
`psycopg2.connect` fails. -/
def envBadConn : Env :=
  { query_result := fun k =>
      if k == "rsi_mean_reversion" then .ok ⟨1, [rowNanInd]⟩
      else .error "http 500",
    db_url := "postgres://x", connect_ok := false, delete_ok := true,
    insert_raises := fun _ => false, now := 1000 }

/-- `DATABASE_URL` missing; everything else is failing too, but those
failures are all caught. -/
def envNoUrl : Env :=
  { query_result := fun k =>
      if k == "rsi_mean_reversion" then .ok ⟨1, [rowNanInd]⟩
      else .error "http 500",
    db_url := "", connect_ok := false, delete_ok := false,
    insert_raises := fun _ => true, now := 1000 }

/-- The `bollinger_squeeze` query raises; the others return `rowNanInd`. -/
def envC8 : Env :=
  { query_result := fun k =>
      if k == "bollinger_squeeze" then .error "http 500"
      else .ok ⟨1, [rowNanInd]⟩,
    db_url := "postgres://x", connect_ok := true, delete_ok := true,
    insert_raises := fun _ => false, now := 1000 }

/-- Like `envC8` but the `bollinger_squeeze` query succeeds (with an empty
result); all other strategies agree with `envC8`. -/
def envC8' : Env :=
  { envC8 with
    query_result := fun k =>
      if k == "bollinger_squeeze" then .ok ⟨0, []⟩
      else .ok ⟨1, [rowNanInd]⟩ }

/-! ### C8: per-strategy failure isolation -/

theorem strategySignals_congr (env env' : Env) (k : String) (cfg : StrategyConfig)
    (h : env.query_result k = env'.query_result k) :
    strategySignals env k cfg = strategySignals env' k cfg := by
  simp [strategySignals, run_screener, h]

/-- C8. An exception from the remote query capability during one
strategy's run is converted into an empty result list for that strategy,
and does not affect any other strategy's contribution: the aggregate list
equals the flattening in catalog order in which the failing strategy
contributes `[]` and every other strategy contributes exactly what it
contributes in any environment whose remote answers agree on the other
strategies. -/
theorem query_failure_isolated_C8 (env env' : Env) (k e : String)
    (hfail : env.query_result k = .error e)
    (hagree : ∀ k', k' ≠ k → env.query_result k' = env'.query_result k') :
    (∀ cfg, (run_screener env k cfg).1 = [] ∧ strategySignals env k cfg = []) ∧
    mainSignals env =
      (STRATEGY_FILTERS.map (fun p =>
        if p.1 = k then [] else strategySignals env' p.1 p.2)).flatten := by
  have hempty : ∀ cfg, strategySignals env k cfg = [] := fun cfg => by
    simp [strategySignals, run_screener, hfail]
  refine ⟨fun cfg => ⟨by simp [run_screener, hfail], hempty cfg⟩, ?_⟩
  unfold mainSignals
  congr 1
  apply List.map_congr_left
  intro p _
  by_cases hk : p.1 = k
  · rw [if_pos hk, hk, hempty p.2]
  · rw [if_neg hk]
    exact strategySignals_congr env env' p.1 p.2 (hagree p.1 hk)

theorem query_failure_isolated_C8_witness :
    (run_screener envC8 "bollinger_squeeze"
        ⟨"Bollinger Squeeze Breakout", []⟩).1 = [] ∧
    mainSignals envC8 =
      (STRATEGY_FILTERS.map (fun p =>
        if p.1 = "bollinger_squeeze" then []
        else strategySignals envC8' p.1 p.2)).flatten := by
  have t := query_failure_isolated_C8 envC8 envC8' "bollinger_squeeze" "http 500"
    rfl (fun k' hk => by
      simp [envC8, envC8', if_neg hk])
  exact ⟨(t.1 ⟨"Bollinger Squeeze Breakout", []⟩).1, t.2⟩

/-! ### C9: missing connection string -/

/-- C9. When the connection string is absent, `save_to_database` is a
no-op that logs `ERROR: DATABASE_URL not set`, touches no store state and
records no store interaction, and the whole run completes without error,
with the database state unchanged and the in-memory total signal count
still reported; when the aggregate is non-empty the persist step is reached
and the error line appears in the run's output. -/
theorem missing_db_url_C9 (env : Env) (db0 : DBState) (h : env.db_url = "") :
    (∀ db signals, save_to_database env db signals =
      .ok { db := db, events := [], lines := ["ERROR: DATABASE_URL not set"],
            saved := none }) ∧
    ∃ r, screenerMain env db0 = .ok r ∧ r.db = db0 ∧ r.events = [] ∧
      ("Total signals found: " ++ toString r.signals.length) ∈ r.lines ∧
      (mainSignals env ≠ [] → "ERROR: DATABASE_URL not set" ∈ r.lines) := by
  have hsave : ∀ db signals, save_to_database env db signals =
      .ok { db := db, events := [], lines := ["ERROR: DATABASE_URL not set"],
            saved := none } := by
    intro db signals
    simp [save_to_database, h]
  refine ⟨hsave, ?_⟩
  by_cases hemp : (mainSignals env).isEmpty = true
  · refine ⟨⟨mainSignals env, db0, [],
        ("TradingView Screener - " ++ toString env.now) :: sepLine ::
          scanLines env ++
          [sepLine, "Total signals found: " ++ toString (mainSignals env).length] ++
          summaryLines (mainSignals env)⟩, ?_, rfl, rfl, ?_, ?_⟩
    · simp [screenerMain, hemp]
    · simp
    · intro hne
      exact absurd (List.isEmpty_iff.mp hemp) hne
  · refine ⟨⟨mainSignals env, db0, [],
        ("TradingView Screener - " ++ toString env.now) :: sepLine ::
          scanLines env ++
          [sepLine, "Total signals found: " ++ toString (mainSignals env).length] ++
          ["ERROR: DATABASE_URL not set"] ++
          summaryLines (mainSignals env)⟩, ?_, rfl, rfl, ?_, ?_⟩
    · simp [screenerMain, hemp, hsave db0 (mainSignals env)]
    · simp
    · intro _
      simp

theorem missing_db_url_C9_witness :
    save_to_database envNoUrl [] [sig0] =
      .ok { db := [], events := [], lines := ["ERROR: DATABASE_URL not set"],
            saved := none } ∧
    (screenerMain envNoUrl []).map (fun r => r.db.length + r.events.length) =
      .ok 0 := by
  obtain ⟨hsave, r, hr, hdb, hev, htot, herr⟩ := missing_db_url_C9 envNoUrl [] rfl
  refine ⟨hsave [] [sig0], ?_⟩
  rw [hr]
  simp [Except.map, hdb, hev]

/-! ### C10: an empty run never touches the store -/

theorem scanLines_not_saved (env : Env) :
    ∀ l ∈ scanLines env, isSavedLine l = false := by
  intro l hl
  unfold scanLines at hl
  rw [List.mem_flatten] at hl
  obtain ⟨ls, hls, hl⟩ := hl
  rw [List.mem_map] at hls
  obtain ⟨p, _, rfl⟩ := hls
  simp only [List.mem_cons, List.mem_singleton] at hl
  rcases hl with rfl | rfl | hfalse
  · rfl
  · unfold run_screener
    cases hq : env.query_result p.1 <;> rfl
  · exact absurd hfalse (List.not_mem_nil l)

theorem summaryLines_not_saved (signals : List Signal) :
    ∀ l ∈ summaryLines signals, isSavedLine l = false := by
  intro l hl
  unfold summaryLines at hl
  simp only [List.mem_cons, List.mem_map] at hl
  rcases hl with rfl | ⟨p, _, rfl⟩
  · rfl
  · rfl

/-- C10. When the aggregated signal list is empty, the store is never
invoked: the run succeeds, the database state is untouched (so stale
records survive), no store interaction is recorded (no connection, no
eviction, no insert), and no `Saved` line appears in the output. -/
theorem empty_run_store_untouched_C10 (env : Env) (db0 : DBState)
    (h : mainSignals env = []) :
    ∃ r, screenerMain env db0 = .ok r ∧ r.db = db0 ∧ r.events = [] ∧
      ∀ l ∈ r.lines, isSavedLine l = false := by
  have hemp : (mainSignals env).isEmpty = true := by simp [h]
  refine ⟨⟨mainSignals env, db0, [],
      ("TradingView Screener - " ++ toString env.now) :: sepLine ::
        scanLines env ++
        [sepLine, "Total signals found: " ++ toString (mainSignals env).length] ++
        summaryLines (mainSignals env)⟩, ?_, rfl, rfl, ?_⟩
  · simp [screenerMain, hemp]
  · intro l hl
    simp only [List.mem_cons, List.mem_append, List.mem_singleton,
      List.not_mem_nil, or_false] at hl
    rcases hl with ((rfl | rfl | hl) | rfl | rfl) | hl
    · rfl
    · rfl
    · exact scanLines_not_saved env l hl
    · rfl
    · rfl
    · exact summaryLines_not_saved _ l hl

/-- A record from a previous run, 1000 hours stale. -/
def staleRec : DBRecord :=
  { symbol := "OLD", strategy_key := "macd_momentum",
    strategy_name := "MACD Momentum Crossover", price := .pint 50,
    indicators := .pdict [], scanned_at := 0, processed := false }

/-- Every remote query raises, so the aggregated signal list is empty. -/
def envEmpty : Env :=
  { query_result := fun _ => .error "service down", db_url := "postgres://x",
    connect_ok := true, delete_ok := true, insert_raises := fun _ => false,
    now := 1000 }

theorem empty_run_store_untouched_C10_witness :
    (screenerMain envEmpty [staleRec]).map (fun r => (r.db, r.events)) =
      .ok ([staleRec], []) := by
  obtain ⟨r, hr, hdb, hev, _⟩ :=
    empty_run_store_untouched_C10 envEmpty [staleRec] rfl
  rw [hr]
  simp [Except.map, hdb, hev]

/-! ### C1: the reported saved count -/

/-- C1 is false on the code: persisting the same in-band signal twice
(identical symbol, strategy key, and — both inserted at the same `NOW()` —
calendar day) against an empty store writes exactly one row, yet the
reported count (`Saved N/M`) is 2, because `saved_count` is incremented
after every `INSERT` that does not raise, and `ON CONFLICT DO NOTHING`
suppresses the conflict instead of raising. -/
theorem saved_count_C1_counterexample :
    (save_to_database env0 [] [sig0, sig0]).map
      (fun o => (o.saved, o.db.length)) = .ok (some 2, 1) := by
  rfl

/-- C1 amended: The count reported by the store counts the insert
attempts that did not raise, not the rows actually written: under the
skip-on-conflict policy, two signals sharing symbol, strategy key and
calendar day are reported as 2 saved while exactly one live record for
that key exists in the store. -/
theorem saved_count_C1_amended (env : Env) (db : DBState) (s₁ s₂ : Signal)
    (hurl : env.db_url ≠ "") (hconn : env.connect_ok = true)
    (hins : ∀ i, env.insert_raises i = false)
    (hsym : s₁.symbol = s₂.symbol) (hkey : s₁.strategy_key = s₂.strategy_key)
    (hfresh : (if env.delete_ok then evictOld env.now db else db).any
        (sameKey env.now s₁) = false) :
    (save_to_database env db [s₁, s₂]).map
      (fun o => (o.saved, (o.db.filter (sameKey env.now s₁)).length)) =
      .ok (some 2, 1) := by
  have hb : (env.db_url == "") = false := beq_eq_false_iff_ne.mpr hurl
  have hfun : sameKey env.now s₂ = sameKey env.now s₁ := by
    funext r
    unfold sameKey
    rw [← hsym, ← hkey]
  have key_insert : ∀ X : DBState, X.any (sameKey env.now s₁) = false →
      insertLoop env [s₁, s₂] 0 X 0 [] = (X ++ [mkRecord env.now s₁], 2, []) := by
    intro X hX
    have h1 : insertSignal env.now X s₁ = X ++ [mkRecord env.now s₁] := by
      simp [insertSignal, hX]
    have hany : (X ++ [mkRecord env.now s₁]).any (sameKey env.now s₂) = true := by
      rw [hfun, List.any_append]
      simp [sameKey, mkRecord]
    have h2 : insertSignal env.now (X ++ [mkRecord env.now s₁]) s₂ =
        X ++ [mkRecord env.now s₁] := by
      simp [insertSignal, hany]
    simp [insertLoop, hins 0, hins 1, h1, h2]
  have hnil : ∀ X : DBState, X.any (sameKey env.now s₁) = false →
      X.filter (sameKey env.now s₁) = [] := by
    intro X hX
    rw [List.filter_eq_nil_iff]
    intro a ha
    have := List.any_eq_false.mp hX a ha
    simpa using this
  cases hdel : env.delete_ok
  · rw [hdel] at hfresh
    simp only [Bool.false_eq_true, if_false] at hfresh
    simp only [save_to_database, hb, hconn, hdel, Bool.not_true, Bool.false_eq_true,
      if_false, Bool.not_false, if_true]
    rw [key_insert db hfresh]
    simp [Except.map, hnil db hfresh, sameKey, mkRecord]
  · rw [hdel] at hfresh
    simp only [if_true] at hfresh
    simp only [save_to_database, hb, hconn, hdel, Bool.not_true, Bool.false_eq_true,
      if_false, Bool.not_false, if_true]
    rw [key_insert (evictOld env.now db) hfresh]
    simp [Except.map, hnil (evictOld env.now db) hfresh, sameKey, mkRecord]

theorem saved_count_C1_amended_witness :
    (save_to_database env0 [] [sig0, sig0]).map
      (fun o => (o.saved, (o.db.filter (sameKey env0.now sig0)).length)) =
      .ok (some 2, 1) := by
  exact saved_count_C1_amended env0 [] sig0 sig0 (by decide) rfl (fun i => rfl)
    rfl rfl rfl

/-! ### C2: where sanitization happens -/

theorem normalizeRow_indicators (k n : String) (row : Row) (sig : Signal)
    (h : normalizeRow k n row = some sig) :
    sig.indicators = row.filter (fun e => !(e.1 == "name")) := by
  by_cases hs : rowSymbol row = ""
  · rw [normalizeRow_none_of_symbol k n row hs] at h
    exact absurd h (by simp)
  · rw [normalizeRow_of_price k n row hs] at h
    cases hp : priceOk (rowGet row "close" (.pint 0))
    · rw [hp] at h
      simp at h
    · rw [hp] at h
      simp only [if_true, Option.some.injEq] at h
      rw [← h]

theorem insertLoop_mem (env : Env) :
    ∀ (signals : List Signal) (i : Nat) (db : DBState) (c : Nat)
      (lines : List String) (r : DBRecord),
      r ∈ (insertLoop env signals i db c lines).1 →
      r ∈ db ∨ noNonfinite r.indicators = true := by
  intro signals
  induction signals with
  | nil => intro i db c lines r hr; exact .inl hr
  | cons s rest ih =>
    intro i db c lines r hr
    cases hra : env.insert_raises i
    · rw [insertLoop] at hr
      rw [hra] at hr
      simp only [Bool.false_eq_true, if_false] at hr
      rcases ih (i + 1) (insertSignal env.now db s) (c + 1) lines r hr with hmem | hsan
      · cases hc : (db.any (sameKey env.now s))
        · rw [insertSignal, hc] at hmem
          simp only [Bool.false_eq_true, if_false] at hmem
          rcases List.mem_append.mp hmem with hmem | hmem
          · exact .inl hmem
          · right
            rw [List.mem_singleton.mp hmem]
            simp [mkRecord, noNonfinite, cleanEntries_noNonfinite]
        · rw [insertSignal, hc] at hmem
          simp only [if_true] at hmem
          exact .inl hmem
      · exact .inr hsan
    · rw [insertLoop] at hr
      rw [hra] at hr
      simp only [if_true] at hr
      exact ih (i + 1) db c _ r hr

theorem save_mem_sanitized (env : Env) (db : DBState) (signals : List Signal)
    (out : StoreOutcome) (r : DBRecord)
    (hsave : save_to_database env db signals = .ok out) (hr : r ∈ out.db) :
    r ∈ db ∨ noNonfinite r.indicators = true := by
  cases hu : env.db_url == ""
  · cases hc : env.connect_ok
    · rw [save_to_database, hu, hc] at hsave
      simp at hsave
    · cases hdel : env.delete_ok
      · rw [save_to_database, hu, hc, hdel] at hsave
        simp only [Bool.false_eq_true, if_false, Bool.not_true, Bool.not_false,
          if_true, Except.ok.injEq] at hsave
        rw [← hsave] at hr
        rcases insertLoop_mem env signals 0 db 0 [] r hr with hmem | hsan
        · exact .inl hmem
        · exact .inr hsan
      · rw [save_to_database, hu, hc, hdel] at hsave
        simp only [Bool.false_eq_true, if_false, Bool.not_true, Bool.not_false,
          if_true, Except.ok.injEq] at hsave
        rw [← hsave] at hr
        rcases insertLoop_mem env signals 0 (evictOld env.now db) 0 [] r hr with
          hmem | hsan
        · exact .inl (List.mem_of_mem_filter hmem)
        · exact .inr hsan
  · rw [save_to_database, hu] at hsave
    simp only [if_true, Except.ok.injEq] at hsave
    rw [← hsave] at hr
    exact .inl hr

/-- C2 is false on the code: the signal emitted by the normalisation
loop for a row whose `RSI` field is `nan` carries the raw `nan` in its
indicator mapping — the Value Sanitizer has *not* been applied when the
signal is emitted (it is applied only later, inside `save_to_database`). -/
theorem sanitize_at_emit_C2_counterexample :
    normalizeRow "rsi_mean_reversion" "RSI Mean Reversion" rowNanInd =
      some sigNanInd ∧
    noNonfiniteEntries sigNanInd.indicators = false :=
  ⟨rfl, rfl⟩

/-- C2 amended: The indicator mapping of every emitted signal is
built from every row field except `name`, *unsanitized*; the Value
Sanitizer (`clean_for_json`) is applied by the store at persistence time,
so every record the store writes (as opposed to records already present)
carries sanitized, non-finite-free indicators. -/
theorem sanitize_at_persist_C2_amended :
    (∀ (k n : String) (row : Row) (sig : Signal),
      normalizeRow k n row = some sig →
      sig.indicators = row.filter (fun e => !(e.1 == "name"))) ∧
    (∀ (env : Env) (db : DBState) (signals : List Signal) (out : StoreOutcome)
      (r : DBRecord), save_to_database env db signals = .ok out →
      r ∈ out.db → r ∈ db ∨ noNonfinite r.indicators = true) :=
  ⟨normalizeRow_indicators, save_mem_sanitized⟩

/-- The store outcome of persisting `[sig0]` into an empty store. -/
def outC2 : StoreOutcome :=
  { db := [mkRecord 1000 sig0],
    events := [.connect, .evict, .insert "AAPL"],
    lines := ["Saved 1/1 signals to database"], saved := some 1 }

theorem sanitize_at_persist_C2_amended_witness :
    sigNanInd.indicators = rowNanInd.filter (fun e => !(e.1 == "name")) ∧
    (mkRecord 1000 sig0 ∈ ([] : DBState) ∨
      noNonfinite (mkRecord 1000 sig0).indicators = true) := by
  constructor
  · exact sanitize_at_persist_C2_amended.1 "rsi_mean_reversion"
      "RSI Mean Reversion" rowNanInd sigNanInd rfl
  · exact sanitize_at_persist_C2_amended.2 env0 [] [sig0] outC2
      (mkRecord 1000 sig0) rfl (List.mem_singleton.mpr rfl)

/-! ### C3: which failures are fatal -/

/-- C3 is false on the code: `psycopg2.connect` is not inside any
`try`, so when signals were found and the store connection fails, the
exception propagates out of `save_to_database` and out of `main` — the run
aborts. -/
theorem connect_failure_C3_counterexample :
    screenerMain envBadConn [] = .error "could not connect to database" := by
  rfl

/-- Failure pattern for the C3 witness: the connection succeeds but every
remote query except one fails, the eviction `DELETE` fails, and every
`INSERT` raises. -/
def envHarsh : Env :=
  { query_result := fun k =>
      if k == "rsi_mean_reversion" then .ok ⟨1, [rowNanInd]⟩
      else .error "http 500",
    db_url := "postgres://x", connect_ok := true, delete_ok := false,
    insert_raises := fun _ => true, now := 1000 }

/-- C3 amended: Errors during strategy querying, eviction and
per-record persistence are all non-fatal: the run completes successfully
whenever the connection string is absent (persistence is skipped) or the
store connection succeeds — arbitrary query failures, eviction failures
and per-insert failures included. Only a store connection failure is
fatal. -/
theorem error_isolation_C3_amended (env : Env) (db0 : DBState)
    (h : env.db_url = "" ∨ env.connect_ok = true) :
    ∃ r, screenerMain env db0 = .ok r := by
  cases hres : screenerMain env db0 with
  | ok r => exact ⟨r, rfl⟩
  | error e =>
    exfalso
    have hsave : ∀ signals, ∃ out,
        save_to_database env db0 signals = .ok out := by
      intro signals
      rcases h with hu | hc
      · have hu2 : (env.db_url == "") = true := by simp [hu]
        rw [save_to_database, hu2]
        exact ⟨_, rfl⟩
      · cases hu2 : env.db_url == ""
        · rw [save_to_database, hu2, hc]
          simp only [Bool.false_eq_true, if_false, Bool.not_true]
          exact ⟨_, rfl⟩
        · rw [save_to_database, hu2]
          exact ⟨_, rfl⟩
    rw [screenerMain] at hres
    cases hemp : (mainSignals env).isEmpty
    · rw [hemp] at hres
      simp only [Bool.false_eq_true, if_false] at hres
      obtain ⟨out, hout⟩ := hsave (mainSignals env)
      rw [hout] at hres
      simp at hres
    · rw [hemp] at hres
      simp at hres

theorem error_isolation_C3_amended_witness :
    (screenerMain envHarsh []).map (fun _ => 0) = .ok 0 := by
  obtain ⟨r, hr⟩ := error_isolation_C3_amended envHarsh [] (Or.inr rfl)
  rw [hr]
  rfl
